import Mathlib

/-!
Shallow embedding of `check_orders.py`, a Gmail order-status tracker.

The pure Python string and regex operations are translated
function-by-function.  External machinery is modelled as explicit
oracles: the IMAP session becomes a record of `search`/`fetch`
functions, and the byte/codec layer of `bytes.decode` becomes the
recorded outcome of each decode attempt (see `HdrSeg` and
`EmailMessage`).  Character classes are the ASCII fragments of
Python's `\w`, `\s`, `str.lower`, which is what the status phrases
and carrier patterns exercise.
-/

/-- ASCII model of Python's regex word-character class `\w` = `[A-Za-z0-9_]`. -/
def isWordChar (c : Char) : Bool := c.isAlphanum || c = '_'

/-- ASCII model of Python's `\s` and `str.strip` whitespace class. -/
def isPySpace (c : Char) : Bool :=
  c = ' ' || c = '\t' || c = '\n' || c = '\r' || c = '\x0b' || c = '\x0c'

/-- Does `needle` occur as a prefix of `hay`? -/
def isSubAt : List Char → List Char → Bool
  | [], _ => true
  | _ :: _, [] => false
  | a :: as, b :: bs => a == b && isSubAt as bs

/-- Python's substring containment `needle in hay`, on character lists. -/
def subStr (needle : List Char) : List Char → Bool
  | [] => needle.isEmpty
  | c :: bs => isSubAt needle (c :: bs) || subStr needle bs

/-- Python's `needle in hay` on strings. -/
def strIn (needle hay : String) : Bool := subStr needle.toList hay.toList

/-- Python `str.strip()`: remove leading and trailing whitespace. -/
def pyStrip (s : String) : String :=
  String.mk (((s.toList.dropWhile isPySpace).reverse.dropWhile isPySpace).reverse)

/-- ASCII model of Python `str.lower()`, written over the character list
so that it evaluates by kernel reduction. -/
def pyLower (s : String) : String := String.mk (s.toList.map Char.toLower)

/-- `STATUS_HINTS["delivered"]` from the source (line 23). -/
def STATUS_HINTS_delivered : List String :=
  [" delivered ", " has been delivered", "was delivered", "delivered on"]

/-- `STATUS_HINTS["shipped"]` from the source (line 24). -/
def STATUS_HINTS_shipped : List String :=
  [" shipped ", " on the way ", " out for delivery ", " has shipped "]

/-- `STATUS_HINTS["pending"]` from the source (line 25). -/
def STATUS_HINTS_pending : List String :=
  [" order confirmed ", " order confirmation ", " thanks for your order ", " placed "]

/-- Does any hint of the list occur in `s`?  Models `any(h in s for h in hints)`. -/
def anyHint (hints : List String) (s : String) : Bool := hints.any (fun h => strIn h s)

/-- `detect_status` (source lines 90-96): the padded, lowercased
concatenation of subject and body is tested against the three hint
lists in priority order; the final two branches both yield "Pending". -/
def detect_status (subject body : String) (has_tracking : Bool) : String :=
  let s := " " ++ pyLower subject ++ " " ++ pyLower body ++ " "
  if anyHint STATUS_HINTS_delivered s then "Delivered"
  else if has_tracking || anyHint STATUS_HINTS_shipped s then "Shipped"
  else if anyHint STATUS_HINTS_pending s then "Pending"
  else if strIn "order confirmation" s || strIn "placed" s then "Pending"
  else "Pending"

/-- The four-step strict-priority decision list exactly as the spec's
section 4.4 words it (step 3 and the step 4 default both yield
"Pending"), over the code's hint tables.  Written to be compared with
`detect_status`. -/
def specDecisionList (subject body : String) (has_tracking : Bool) : String :=
  let s := " " ++ pyLower subject ++ " " ++ pyLower body ++ " "
  if anyHint STATUS_HINTS_delivered s then "Delivered"
  else if has_tracking || anyHint STATUS_HINTS_shipped s then "Shipped"
  else if anyHint STATUS_HINTS_pending s then "Pending"
  else "Pending"

/-- Classification of an already-concatenated probe string, used to state
that phrase matching happens on the single joined string. -/
def statusOfConcat (s : String) (has_tracking : Bool) : String :=
  if anyHint STATUS_HINTS_delivered s then "Delivered"
  else if has_tracking || anyHint STATUS_HINTS_shipped s then "Shipped"
  else if anyHint STATUS_HINTS_pending s then "Pending"
  else if strIn "order confirmation" s || strIn "placed" s then "Pending"
  else "Pending"

/-- True when the head of the list is a regex word character; end of
string counts as non-word.  Used for the right side of `\b`. -/
def headIsWord : List Char → Bool
  | [] => false
  | c :: _ => isWordChar c

/-- True when the character just before the current position is a word
character; start of string counts as non-word.  Used for the left side
of `\b`. -/
def prevIsWord : Option Char → Bool
  | none => false
  | some c => isWordChar c

/-- Consume exactly `n` characters of class `cls`, returning them and the
rest; `none` when fewer than `n` such characters lead the list. -/
def takeClass (cls : Char → Bool) : Nat → List Char → Option (List Char × List Char)
  | 0, l => some ([], l)
  | _ + 1, [] => none
  | n + 1, c :: rest =>
    if cls c then (takeClass cls n rest).map (fun p => (c :: p.1, p.2)) else none

/-- Attempt `RE_UPS = \b1Z[0-9A-Z]{16}\b` (case-insensitive) at the
current position, given the previous character (for `\b`).  Returns the
matched characters. -/
def matchUPS (prev : Option Char) (l : List Char) : Option (List Char) :=
  if prevIsWord prev then none
  else match l with
  | '1' :: c2 :: rest =>
    if c2 == 'Z' || c2 == 'z' then
      match takeClass Char.isAlphanum 16 rest with
      | some (mid, rest2) => if headIsWord rest2 then none else some ('1' :: c2 :: mid)
      | none => none
    else none
  | _ => none

/-- Attempt `RE_USPS = \b9\d{21,22}\b` at the current position.  The
greedy bounded repeat tries 22 digits first, then backtracks to 21. -/
def matchUSPS (prev : Option Char) (l : List Char) : Option (List Char) :=
  if prevIsWord prev then none
  else match l with
  | '9' :: rest =>
    match takeClass Char.isDigit 22 rest with
    | some (d, rest2) =>
      if headIsWord rest2 then
        match takeClass Char.isDigit 21 rest with
        | some (d21, rest21) => if headIsWord rest21 then none else some ('9' :: d21)
        | none => none
      else some ('9' :: d)
    | none =>
      match takeClass Char.isDigit 21 rest with
      | some (d21, rest21) => if headIsWord rest21 then none else some ('9' :: d21)
      | none => none
  | _ => none

/-- Try a run of exactly `k` digits followed by `\b`. -/
def tryDigitsLen (k : Nat) (l : List Char) : Option (List Char) :=
  match takeClass Char.isDigit k l with
  | some (d, rest) => if headIsWord rest then none else some d
  | none => none

/-- Greedy bounded digit repeat `\d{lo,k}` followed by `\b`: try `k`
digits, then `k - 1`, ..., down to `lo`. -/
def tryDigitsRange (lo : Nat) : Nat → List Char → Option (List Char)
  | k, l =>
    if k < lo then none
    else match tryDigitsLen k l with
      | some d => some d
      | none =>
        match k with
        | 0 => none
        | k' + 1 => tryDigitsRange lo k' l

/-- Attempt `RE_FEDEX = \b\d{12,22}\b` at the current position. -/
def matchFEDEX (prev : Option Char) (l : List Char) : Option (List Char) :=
  if prevIsWord prev then none else tryDigitsRange 12 22 l

/-- Attempt `RE_DHL = \b\d{10}\b` at the current position. -/
def matchDHL (prev : Option Char) (l : List Char) : Option (List Char) :=
  if prevIsWord prev then none else tryDigitsLen 10 l

/-- Greedy `[0-9A-Z]+\b` (case-insensitive): try `k` class characters,
backtracking down to 1, each time checking the trailing `\b`. -/
def tbaTail : Nat → List Char → Option (List Char)
  | 0, _ => none
  | k + 1, rest =>
    match takeClass Char.isAlphanum (k + 1) rest with
    | some (d, r) => if headIsWord r then tbaTail k rest else some d
    | none => tbaTail k rest

/-- Attempt `RE_TBA = \bTBA[0-9A-Z]+\b` (case-insensitive) at the
current position. -/
def matchTBA (prev : Option Char) (l : List Char) : Option (List Char) :=
  if prevIsWord prev then none
  else match l with
  | t :: b :: a :: rest =>
    if (t == 'T' || t == 't') && (b == 'B' || b == 'b') && (a == 'A' || a == 'a') then
      match tbaTail rest.length rest with
      | some d => some (t :: b :: a :: d)
      | none => none
    else none
  | _ => none

/-- Model of `re.search`: try the matcher at every position from the
left, threading the previous character for `\b`; the first position
with a match wins.  Returns the matched text (`m.group(0)`). -/
def searchA (matcher : Option Char → List Char → Option (List Char)) :
    Option Char → List Char → Option (List Char)
  | prev, l =>
    match matcher prev l with
    | some m => some m
    | none =>
      match l with
      | [] => none
      | c :: rest => searchA matcher (some c) rest

/-- `rx.search(body)` returning `m.group(0)` as a string. -/
def reSearch (matcher : Option Char → List Char → Option (List Char)) (s : String) :
    Option String :=
  (searchA matcher none s.toList).map String.mk

/-- `detect_tracking` (source lines 84-88): the five carrier patterns are
tried in the fixed order UPS, USPS, FedEx, DHL, Amazon Logistics; the
first with a match anywhere in the body wins. -/
def detect_tracking (body : String) : String × String :=
  match reSearch matchUPS body with
  | some m => ("UPS", m)
  | none =>
    match reSearch matchUSPS body with
    | some m => ("USPS", m)
    | none =>
      match reSearch matchFEDEX body with
      | some m => ("FedEx", m)
      | none =>
        match reSearch matchDHL body with
        | some m => ("DHL", m)
        | none =>
          match reSearch matchTBA body with
          | some m => ("Amazon Logistics", m)
          | none => ("", "")

/-- One segment of `email.header.decode_header`'s output.  A `txt`
segment is a `str` chunk and passes through unchanged.  A `bytesSeg`
chunk records the charset token the header declared (`none` when the
header declared none, in which case the code decodes as utf-8) and the
outcome of `t.decode(enc or "utf-8", "ignore")`: `some u` when the
codec name is known (`"ignore"` suppresses any byte-level errors, so a
known codec always yields a string), `none` when the declared codec
name is unknown, in which case `bytes.decode` raises `LookupError`
despite `errors="ignore"`. -/
inductive HdrSeg where
  | txt (s : String)
  | bytesSeg (declaredEnc : Option String) (decodeResult : Option String)
deriving DecidableEq

/-- Raw header value as `dec` receives it: `none` models `None` or `""`
(both falsy, source line 51); `some segs` models a nonempty header
together with its `decode_header` segmentation. -/
def HdrVal := Option (List HdrSeg)

/-- The loop body of `dec` (source lines 53-54): decode one segment, or
raise.  `str` segments pass through; `bytes` segments yield their
recorded decode outcome. -/
def decSeg : HdrSeg → Except String String
  | .txt t => .ok t
  | .bytesSeg _ (some u) => .ok u
  | .bytesSeg _ none => .error "LookupError"

/-- The `out` list `dec`'s loop accumulates, in segment order; the
first raising segment aborts the loop. -/
def decSegs : List HdrSeg → Except String (List String)
  | [] => .ok []
  | seg :: rest =>
    match decSeg seg with
    | .error e => .error e
    | .ok t => (decSegs rest).map (fun l => t :: l)

/-- `dec` (source lines 50-55).  A falsy header decodes to `""`;
otherwise each segment is decoded and the results are joined in
order.  An unknown declared charset raises `LookupError`, modelled as
`Except.error`. -/
def dec (h : HdrVal) : Except String String :=
  match h with
  | none => .ok ""
  | some segs => (decSegs segs).map (fun out => String.join out)

/-- Tag-stripping state machine equivalent to
`re.sub(r"<[^>]+>", " ", h)`: a `<` opens a candidate tag buffer; a
`>` closing a buffer of at least two characters (the `<` plus one or
more non-`>` characters) replaces the whole tag with one space; `<>`
and an unclosed `<...` are emitted literally. -/
def stripTagsGo (buf : Option (List Char)) : List Char → List Char
  | [] => (match buf with | none => [] | some acc => acc)
  | c :: rest =>
    match buf with
    | none =>
      if c == '<' then stripTagsGo (some ['<']) rest
      else c :: stripTagsGo none rest
    | some acc =>
      if c == '>' then
        if 2 ≤ acc.length then ' ' :: stripTagsGo none rest
        else acc ++ '>' :: stripTagsGo none rest
      else stripTagsGo (some (acc ++ [c])) rest

/-- `re.sub(r"<[^>]+>", " ", h)` on character lists. -/
def stripTags (l : List Char) : List Char := stripTagsGo none l

/-- `re.sub(r"\s+", " ", h)`: each maximal whitespace run becomes one
space. -/
def collapseWs : List Char → List Char
  | [] => []
  | [c] => if isPySpace c then [' '] else [c]
  | c :: c2 :: rest =>
    if isPySpace c then
      if isPySpace c2 then collapseWs (c2 :: rest)
      else ' ' :: collapseWs (c2 :: rest)
    else c :: collapseWs (c2 :: rest)

/-- Modelled from the Python standard library `html.unescape`,
restricted to the basic named and numeric character references the
repository's emails exercise; all other text, including a bare `&`,
passes through unchanged. -/
def unescape : List Char → List Char
  | [] => []
  | '&' :: 'a' :: 'm' :: 'p' :: ';' :: rest => '&' :: unescape rest
  | '&' :: 'l' :: 't' :: ';' :: rest => '<' :: unescape rest
  | '&' :: 'g' :: 't' :: ';' :: rest => '>' :: unescape rest
  | '&' :: 'q' :: 'u' :: 'o' :: 't' :: ';' :: rest => '"' :: unescape rest
  | '&' :: 'n' :: 'b' :: 's' :: 'p' :: ';' :: rest => ' ' :: unescape rest
  | '&' :: '#' :: '3' :: '9' :: ';' :: rest => '\x27' :: unescape rest
  | c :: rest => c :: unescape rest

/-- `html_to_text` (source line 57): strip markup tags, collapse
whitespace, then decode HTML entities. -/
def html_to_text (h : String) : String :=
  String.mk (unescape (collapseWs (stripTags h.toList)))

/-- A parsed `email.message.Message`.  `contentType` is the result of
`get_content_type()` (declared-or-defaulted, lowercased).  `subjHdr`
and `dateHdr` carry the `Subject`/`Date` header values as `dec`
receives them.  A `leaf` records in `decoded` the outcome of
`get_payload(decode=True).decode(charset or "utf-8", "ignore")`:
`some t` on success, `none` when the attempt raises (payload `None`,
or unknown charset).  A `multi` has a list payload, for which
`get_payload(decode=True)` returns `None`, so every decode attempt on
it raises. -/
inductive EmailMessage where
  | leaf (contentType : String) (subjHdr dateHdr : HdrVal) (decoded : Option String)
  | multi (contentType : String) (subjHdr dateHdr : HdrVal) (parts : List EmailMessage)

/-- `get_content_type()`. -/
def contentTypeOf : EmailMessage → String
  | .leaf ct _ _ _ => ct
  | .multi ct _ _ _ => ct

/-- The `Subject` header value. -/
def subjHdrOf : EmailMessage → HdrVal
  | .leaf _ s _ _ => s
  | .multi _ s _ _ => s

/-- The `Date` header value. -/
def dateHdrOf : EmailMessage → HdrVal
  | .leaf _ _ d _ => d
  | .multi _ _ d _ => d

/-- Outcome of `p.get_payload(decode=True).decode(...)`: `none` means
the attempt raised (and the code's `except` clause fires). -/
def decodeAttempt : EmailMessage → Option String
  | .leaf _ _ _ d => d
  | .multi _ _ _ _ => none

mutual

/-- `Message.walk()`: the message itself, then its parts depth-first in
their original order. -/
def walk : EmailMessage → List EmailMessage
  | .leaf ct s d dc => [.leaf ct s d dc]
  | .multi ct s d ps => .multi ct s d ps :: walkList ps

/-- `walk` over a list of sibling parts, in order. -/
def walkList : List EmailMessage → List EmailMessage
  | [] => []
  | p :: ps => walk p ++ walkList ps

end

/-- One pass of `get_body`'s loops: the first walked part whose declared
content type is `ty` and whose payload decode succeeds. -/
def firstDecoded (ty : String) (parts : List EmailMessage) : Option String :=
  parts.findSome? (fun p => if contentTypeOf p == ty then decodeAttempt p else none)

/-- `get_body` (source lines 58-72).  Multipart: first successfully
decoded `text/plain` part, else first successfully decoded `text/html`
part put through `html_to_text`, else `""`.  Non-multipart: the direct
payload decode, or `""` on failure.  No decode error escapes. -/
def get_body (m : EmailMessage) : String :=
  match m with
  | .multi ct s d ps =>
    match firstDecoded "text/plain" (walk (.multi ct s d ps)) with
    | some t => t
    | none =>
      match firstDecoded "text/html" (walk (.multi ct s d ps)) with
      | some h => html_to_text h
      | none => ""
  | .leaf _ _ _ dc =>
    match dc with
    | some t => t
    | none => ""

/-- Python `bytes.split()` / `str.split()` with no argument: split on
whitespace runs, dropping empty tokens. -/
def pySplit (s : String) : List String :=
  ((s.toList.splitOnP isPySpace).map String.mk).filter (fun t => t != "")

/-- Abstract IMAP session.  `search crit` returns the reply status and
the data list, each item the raw bytes of one untagged response
(zero matches is the empty byte string `""`).  `fetch id` returns the
reply status and, when the fetch data is well formed
(`msg_data` and `msg_data[0]` truthy), the message
`email.message_from_bytes` parses from it; `none` folds together the
falsy-`msg_data` cases the code checks. -/
structure ImapSession where
  search : String → String × List String
  fetch : String → String × Option EmailMessage

/-- The search criterion string built on source lines 75-76. -/
def searchCrit (order_number site_hint : String) : String :=
  if site_hint ≠ "" then
    "(TEXT \"" ++ order_number ++ "\" TEXT \"" ++ site_hint ++ "\")"
  else
    "(TEXT \"" ++ order_number ++ "\")"

/-- `search_latest_for_order` (source lines 74-82).  A non-OK status,
empty data, or empty (zero-match) first data item yields `none`.
Otherwise the last whitespace-separated id token is fetched; a failed
fetch yields `none`.  `data[0].split()[-1]` on a whitespace-only,
nonempty data item raises `IndexError`, modelled as `Except.error`. -/
def search_latest_for_order (imap : ImapSession) (order_number site_hint : String) :
    Except String (Option EmailMessage) :=
  let res := imap.search (searchCrit order_number site_hint)
  if res.1 ≠ "OK" then .ok none
  else match res.2 with
    | [] => .ok none
    | d0 :: _ =>
      if d0 = "" then .ok none
      else match (pySplit d0).getLast? with
        | none => .error "IndexError"
        | some latest_id =>
          let fres := imap.fetch latest_id
          if fres.1 ≠ "OK" then .ok none
          else match fres.2 with
            | none => .ok none
            | some m => .ok (some m)

/-- One input row, as the dictionary `fetch_sheet_rows` builds: an
association list from (lowercased, stripped) header names to cell
text. -/
def Row := List (String × String)

/-- Python `r.get(k)`. -/
def rowGet (r : Row) (k : String) : Option String :=
  (List.find? (fun p => p.1 == k) r).map Prod.snd

/-- Python `a or b` where `a` is `r.get(...)` (falsy: `None` or `""`). -/
def pyOrStr (a : Option String) (b : String) : String :=
  match a with
  | some t => if t = "" then b else t
  | none => b

/-- `(r.get("order number") or r.get("order_number") or "").strip()`
(source line 108). -/
def extractOrder (r : Row) : String :=
  pyStrip (pyOrStr (rowGet r "order number") (pyOrStr (rowGet r "order_number") ""))

/-- `(r.get("site") or "").strip()` (source line 109). -/
def extractSite (r : Row) : String :=
  pyStrip (pyOrStr (rowGet r "site") "")

/-- One output row of `data/status.csv` (source lines 106, 113, 117). -/
structure OutputRecord where
  order_number : String
  site : String
  status : String
  tracking : String
  carrier : String
  email_date : String
  subject : String
deriving DecidableEq

/-- The body of `main`'s loop for one row (source lines 107-117):
extract order and site, skip silently on an empty order, emit the
constant ` Pending` row when no message is found, otherwise decode
headers and body, extract tracking, classify, and emit.  `ok none`
means the row was skipped; `error` models an uncaught exception
(`IndexError` from the search, `LookupError` from a header decode). -/
def processRow (imap : ImapSession) (r : Row) : Except String (Option OutputRecord) :=
  let order := extractOrder r
  let site := extractSite r
  if order = "" then .ok none
  else match search_latest_for_order imap order site with
    | .error e => .error e
    | .ok none => .ok (some ⟨order, site, "Pending", "", "", "", ""⟩)
    | .ok (some msg) =>
      match dec (subjHdrOf msg) with
      | .error e => .error e
      | .ok subject =>
        match dec (dateHdrOf msg) with
        | .error e => .error e
        | .ok date_hdr =>
          let body := get_body msg
          let ct := detect_tracking body
          let status := detect_status subject body (ct.2 != "")
          .ok (some ⟨order, site, status, ct.2, ct.1, date_hdr, subject⟩)

/-- `main`'s row loop (source lines 107-117): rows processed strictly in
input order; an uncaught exception stops the loop, losing every later
row, and is reported alongside the rows already written. -/
def mainLoop (imap : ImapSession) : List Row → List OutputRecord × Option String
  | [] => ([], none)
  | r :: rs =>
    match processRow imap r with
    | .error e => ([], some e)
    | .ok none => mainLoop imap rs
    | .ok (some out) =>
      let rest := mainLoop imap rs
      (out :: rest.1, rest.2)

/-- A session whose every search yields the zero-match reply. -/
def sessionNone : ImapSession :=
  { search := fun _ => ("OK", [""]), fetch := fun _ => ("OK", none) }

/-- A plain-text message carrying a UPS tracking number. -/
def msgUPS : EmailMessage :=
  .leaf "text/plain" (some [.txt "Your order"]) (some [.txt "Mon, 5 May"])
    (some "Tracking: 1Z999AA10123456784")

/-- A session that finds `msgUPS` for every order. -/
def sessionUPS : ImapSession :=
  { search := fun _ => ("OK", ["3 7"]), fetch := fun _ => ("OK", some msgUPS) }

/-- A message whose Subject declares an unknown charset: header decoding
raises `LookupError`. -/
def msgBadSubject : EmailMessage :=
  .leaf "text/plain" (some [.bytesSeg (some "bogus-charset") none]) none (some "hello")

/-- A session that finds `msgBadSubject` for every order. -/
def sessionBad : ImapSession :=
  { search := fun _ => ("OK", ["7"]), fetch := fun _ => ("OK", some msgBadSubject) }

/-- The text a successfully decoding header segment contributes. -/
def segText : HdrSeg → String
  | .txt t => t
  | .bytesSeg _ (some u) => u
  | .bytesSeg _ none => ""

/-- Does the header segment decode without raising? -/
def segOk : HdrSeg → Bool
  | .bytesSeg _ none => false
  | _ => true

/-- Protocol conformance of a session: a nonempty search data item
holds at least one id token (a whitespace-only item would make
`data[0].split()[-1]` raise `IndexError`), and the headers of every
message the store can return decode without raising (an unknown
declared charset would make `dec` raise `LookupError`). -/
def SessionWf (imap : ImapSession) : Prop :=
  (∀ crit d0 rest, (imap.search crit).2 = d0 :: rest → d0 ≠ "" → pySplit d0 ≠ [])
  ∧ (∀ i m, (imap.fetch i).2 = some m →
      (∃ t, dec (subjHdrOf m) = .ok t) ∧ (∃ t, dec (dateHdrOf m) = .ok t))

/-- The spec's HTML-only example message: one part, declared HTML. -/
def htmlOnlyMsg : EmailMessage :=
  .multi "multipart/alternative" none none
    [.leaf "text/html" none none (some "<b>Your order has shipped</b>")]

theorem fourStep_eq (d sh p q : Bool) :
    (if d then "Delivered"
     else if sh then "Shipped"
     else if p then "Pending"
     else if q then "Pending"
     else "Pending")
      = (if d then "Delivered"
         else if sh then "Shipped"
         else if p then "Pending"
         else "Pending") := by
  cases d <;> cases sh <;> cases p <;> cases q <;> rfl

theorem statusOfConcat_four (s : String) (tr : Bool) :
    statusOfConcat s tr
      = (if anyHint STATUS_HINTS_delivered s then "Delivered"
         else if tr || anyHint STATUS_HINTS_shipped s then "Shipped"
         else if anyHint STATUS_HINTS_pending s then "Pending"
         else "Pending") := by
  unfold statusOfConcat
  exact fourStep_eq _ _ _ _

/-- C1: the status classifier equals the four-step strict-priority
decision list of the spec, for every subject, body, and has-tracking
flag; a body containing both "delivered on 5/1" and "out for delivery"
classifies as Delivered, and a body carrying a detected tracking
number but no status phrase classifies as Shipped. -/
theorem C1_status_decision_list :
    (∀ subject body tr, detect_status subject body tr = specDecisionList subject body tr)
    ∧ strIn "delivered on 5/1" "It is out for delivery and was delivered on 5/1" = true
    ∧ strIn "out for delivery" "It is out for delivery and was delivered on 5/1" = true
    ∧ detect_status "" "It is out for delivery and was delivered on 5/1" false = "Delivered"
    ∧ (detect_tracking "1Z999AA10123456784").2 ≠ ""
    ∧ detect_status "" "1Z999AA10123456784" true = "Shipped" := by
  refine ⟨fun subject body tr => ?_, by decide, by decide, by decide, by decide, by decide⟩
  exact statusOfConcat_four (" " ++ pyLower subject ++ " " ++ pyLower body ++ " ") tr

/-- C6 counterexample: the subject "Package delivered." contains the
bare word "delivered", yet the classifier returns Pending rather than
Delivered, because every delivered hint carries surrounding context
(" delivered " is space-delimited and the trailing period blocks it).
This refutes the claim that the delivered phrases include the bare
variant matching such a subject. -/
theorem C6_counterexample :
    strIn "delivered" (pyLower "Package delivered.") = true
    ∧ detect_status "Package delivered." "" false = "Pending"
    ∧ detect_status "Package delivered." "" false ≠ "Delivered" := by
  exact ⟨by decide, by decide, by decide⟩

/-- C6 amended: if the padded lowercased subject-body concatenation
contains one of the code's delivered phrases — " delivered "
(space-delimited on both sides), " has been delivered",
"was delivered", "delivered on" — the classifier returns Delivered;
the bare word with adjacent punctuation, such as a subject ending in
"Package delivered.", matches none of them and yields Pending. -/
theorem C6_delivered_phrases (subject body : String) (tr : Bool)
    (h : anyHint STATUS_HINTS_delivered
      (" " ++ pyLower subject ++ " " ++ pyLower body ++ " ") = true) :
    detect_status subject body tr = "Delivered" := by
  have e : detect_status subject body tr
      = statusOfConcat (" " ++ pyLower subject ++ " " ++ pyLower body ++ " ") tr := rfl
  rw [e, statusOfConcat_four]
  simp [h]

/-- Witness for C6: a subject containing "was delivered" classifies as
Delivered through the amended theorem. -/
theorem C6_delivered_phrases_witness :
    detect_status "It was delivered" "" false = "Delivered" :=
  C6_delivered_phrases "It was delivered" "" false (by decide)

/-- C10: phrase matching happens on the single padded string joining
the lowercased subject and body with one space, so a shipped phrase
may span the subject-body boundary: subject "Order has" with body
"shipped to warehouse" classifies as Shipped although no shipped hint
occurs in the subject alone or in the body alone (raw or lowercased). -/
theorem C10_phrases_span_boundary :
    (∀ subject body tr, detect_status subject body tr
        = statusOfConcat (" " ++ pyLower subject ++ " " ++ pyLower body ++ " ") tr)
    ∧ detect_status "Order has" "shipped to warehouse" false = "Shipped"
    ∧ (STATUS_HINTS_shipped.all (fun h =>
        !strIn h "Order has" && !strIn h (pyLower "Order has")
        && !strIn h "shipped to warehouse"
        && !strIn h (pyLower "shipped to warehouse"))) = true := by
  exact ⟨fun _ _ _ => rfl, by decide, by decide⟩

theorem decSeg_ok_of_segOk (seg : HdrSeg) (h : segOk seg = true) :
    decSeg seg = .ok (segText seg) := by
  cases seg with
  | txt t => rfl
  | bytesSeg e r =>
    cases r with
    | some u => rfl
    | none => simp [segOk] at h

theorem decSegs_ok (segs : List HdrSeg) (h : ∀ seg ∈ segs, segOk seg = true) :
    decSegs segs = .ok (segs.map segText) := by
  induction segs with
  | nil => rfl
  | cons seg rest ih =>
    have h1 : segOk seg = true := h seg (List.mem_cons_self _ _)
    have h2 : ∀ s ∈ rest, segOk s = true := fun s hs => h s (List.mem_cons_of_mem _ hs)
    simp [decSegs, decSeg_ok_of_segOk seg h1, ih h2, Except.map]

theorem decSegs_err (segs : List HdrSeg) (h : ∃ seg ∈ segs, segOk seg = false) :
    decSegs segs = .error "LookupError" := by
  induction segs with
  | nil => simp at h
  | cons seg rest ih =>
    by_cases hs : segOk seg = true
    · obtain ⟨w, hw, hwf⟩ := h
      rcases List.mem_cons.mp hw with rfl | hwr
      · rw [hs] at hwf; cases hwf
      · simp [decSegs, decSeg_ok_of_segOk seg hs, ih ⟨w, hwr, hwf⟩, Except.map]
    · cases seg with
      | txt t => simp [segOk] at hs
      | bytesSeg e r =>
        cases r with
        | some u => simp [segOk] at hs
        | none => simp [decSegs, decSeg]

/-- C7 counterexample: a header consisting of one encoded word whose
declared charset is an unknown codec name makes the decode raise
`LookupError` — `errors="ignore"` does not suppress an unknown codec —
and nothing in `dec` or `main` catches it, so a header decode error
does propagate upward, refuting "Header decoding never raises". -/
theorem C7_counterexample :
    dec (some [.bytesSeg (some "bogus-charset") none]) = .error "LookupError" := rfl

/-- C7 amended: a header with no value decodes to the empty string;
when every segment's declared encoding is known, each segment decodes
independently (str segments pass through, byte segments decode with
their declared or default encoding, byte-level errors ignored) and the
results are concatenated in order.  But when some segment declares an
unknown encoding, the decode raises `LookupError`, which propagates:
there is no fallback for an invalid declared encoding. -/
theorem C7_header_decode :
    dec none = .ok ""
    ∧ (∀ segs, (∀ seg ∈ segs, segOk seg = true) →
        dec (some segs) = .ok (String.join (segs.map segText)))
    ∧ (∀ segs, (∃ seg ∈ segs, segOk seg = false) →
        dec (some segs) = .error "LookupError") := by
  refine ⟨rfl, fun segs h => ?_, fun segs h => ?_⟩
  · simp [dec, decSegs_ok segs h, Except.map]
  · simp [dec, decSegs_err segs h, Except.map]

/-- Witness for C7: a two-segment header joins in order, and one bad
segment raises. -/
theorem C7_header_decode_witness :
    dec (some [.txt "Hi ", .bytesSeg none (some "there")]) = .ok "Hi there"
    ∧ dec (some [.txt "a", .bytesSeg (some "bogus") none]) = .error "LookupError" := by
  constructor
  · exact (C7_header_decode.2.1 [.txt "Hi ", .bytesSeg none (some "there")]
      (by decide)).trans rfl
  · exact C7_header_decode.2.2 [.txt "a", .bytesSeg (some "bogus") none]
      ⟨.bytesSeg (some "bogus") none, by simp, rfl⟩

/-- C3: the tracking extractor evaluates its (carrier, pattern) pairs in
the fixed order UPS, USPS, FedEx, DHL, Amazon Logistics; the first
pattern matching anywhere in the body wins and no later pattern is
consulted; with no match it returns both components empty.  The spec's
literal examples hold. -/
theorem C3_tracking_priority :
    (∀ body m, reSearch matchUPS body = some m → detect_tracking body = ("UPS", m))
    ∧ (∀ body m, reSearch matchUPS body = none →
        reSearch matchUSPS body = some m → detect_tracking body = ("USPS", m))
    ∧ (∀ body m, reSearch matchUPS body = none → reSearch matchUSPS body = none →
        reSearch matchFEDEX body = some m → detect_tracking body = ("FedEx", m))
    ∧ (∀ body m, reSearch matchUPS body = none → reSearch matchUSPS body = none →
        reSearch matchFEDEX body = none →
        reSearch matchDHL body = some m → detect_tracking body = ("DHL", m))
    ∧ (∀ body m, reSearch matchUPS body = none → reSearch matchUSPS body = none →
        reSearch matchFEDEX body = none → reSearch matchDHL body = none →
        reSearch matchTBA body = some m → detect_tracking body = ("Amazon Logistics", m))
    ∧ (∀ body, reSearch matchUPS body = none → reSearch matchUSPS body = none →
        reSearch matchFEDEX body = none → reSearch matchDHL body = none →
        reSearch matchTBA body = none → detect_tracking body = ("", ""))
    ∧ detect_tracking "Box 1Z999AA10123456784 dispatched" = ("UPS", "1Z999AA10123456784")
    ∧ detect_tracking "USPS 9400100000000000000000" = ("USPS", "9400100000000000000000")
    ∧ detect_tracking "Ref 0123456789 end" = ("DHL", "0123456789")
    ∧ detect_tracking "Code TBA123456789012." = ("Amazon Logistics", "TBA123456789012") := by
  refine ⟨fun body m h1 => ?_, fun body m h1 h2 => ?_, fun body m h1 h2 h3 => ?_,
    fun body m h1 h2 h3 h4 => ?_, fun body m h1 h2 h3 h4 h5 => ?_,
    fun body h1 h2 h3 h4 h5 => ?_, by decide, by decide, by decide, by decide⟩
  all_goals simp [detect_tracking, *]

/-- Witness for C3: the UPS clause fires on a concrete body, and the
no-match clause returns both components empty. -/
theorem C3_tracking_priority_witness :
    detect_tracking "Box 1Z999AA10123456784 dispatched" = ("UPS", "1Z999AA10123456784")
    ∧ detect_tracking "no tracking numbers at all" = ("", "") := by
  constructor
  · exact C3_tracking_priority.1 "Box 1Z999AA10123456784 dispatched"
      "1Z999AA10123456784" (by decide)
  · exact C3_tracking_priority.2.2.2.2.2.1 "no tracking numbers at all"
      (by decide) (by decide) (by decide) (by decide) (by decide)

/-- C2: body extraction follows the strict priority order: in a
multipart message the first walked part declared text/plain that
decodes is the body; only if none decodes is the first decoded
text/html part used, through `html_to_text` (tags stripped, whitespace
collapsed, entities decoded); a non-multipart payload is decoded
directly; if every decode fails the body is the empty string, and no
decode error propagates.  The spec's HTML-only example yields a body
whose lowercasing contains "your order has shipped" and classifies as
Shipped. -/
theorem C2_get_body_priority :
    (∀ ct s d ps t,
        firstDecoded "text/plain" (walk (.multi ct s d ps)) = some t →
        get_body (.multi ct s d ps) = t)
    ∧ (∀ ct s d ps h,
        firstDecoded "text/plain" (walk (.multi ct s d ps)) = none →
        firstDecoded "text/html" (walk (.multi ct s d ps)) = some h →
        get_body (.multi ct s d ps) = html_to_text h)
    ∧ (∀ ct s d ps,
        firstDecoded "text/plain" (walk (.multi ct s d ps)) = none →
        firstDecoded "text/html" (walk (.multi ct s d ps)) = none →
        get_body (.multi ct s d ps) = "")
    ∧ (∀ ct s d t, get_body (.leaf ct s d (some t)) = t)
    ∧ (∀ ct s d, get_body (.leaf ct s d none) = "")
    ∧ get_body htmlOnlyMsg = " Your order has shipped "
    ∧ strIn "your order has shipped" (pyLower (get_body htmlOnlyMsg)) = true
    ∧ detect_status "" (get_body htmlOnlyMsg) false = "Shipped" := by
  refine ⟨fun ct s d ps t h1 => ?_, fun ct s d ps h h1 h2 => ?_,
    fun ct s d ps h1 h2 => ?_, fun ct s d t => rfl, fun ct s d => rfl,
    by decide, by decide, by decide⟩
  all_goals simp [get_body, *]

/-- Witness for C2: the HTML-only message goes through `html_to_text`,
and a plain-text part wins over an HTML sibling. -/
theorem C2_get_body_priority_witness :
    get_body htmlOnlyMsg = html_to_text "<b>Your order has shipped</b>"
    ∧ get_body (.multi "multipart/mixed" none none
        [.leaf "text/plain" none none (some "plain text wins"),
         .leaf "text/html" none none (some "<p>html loses</p>")])
      = "plain text wins" := by
  constructor
  · exact C2_get_body_priority.2.1 "multipart/alternative" none none
      [.leaf "text/html" none none (some "<b>Your order has shipped</b>")]
      "<b>Your order has shipped</b>" (by decide) (by decide)
  · exact C2_get_body_priority.1 "multipart/mixed" none none
      [.leaf "text/plain" none none (some "plain text wins"),
       .leaf "text/html" none none (some "<p>html loses</p>")]
      "plain text wins" (by decide)

theorem pySplit_nil : pySplit "" = [] := rfl

/-- C8: when the search reply is OK and its first data item holds one
or more id tokens, the selected id is the last token in the returned
ordering, and the outcome is exactly what fetching that id yields (no
independent recency verification); a zero-match search (empty data
list, or an empty first data item) returns none rather than an
error. -/
theorem C8_search_selects_last :
    (∀ imap o s d0 rest i,
        (imap.search (searchCrit o s)).1 = "OK" →
        (imap.search (searchCrit o s)).2 = d0 :: rest →
        (pySplit d0).getLast? = some i →
        search_latest_for_order imap o s
          = .ok (if (imap.fetch i).1 = "OK" then (imap.fetch i).2 else none))
    ∧ (∀ imap o s,
        (imap.search (searchCrit o s)).1 = "OK" →
        ((imap.search (searchCrit o s)).2 = []
          ∨ (imap.search (searchCrit o s)).2.head? = some "") →
        search_latest_for_order imap o s = .ok none) := by
  constructor
  · intro imap o s d0 rest i h1 h2 h3
    have hne : d0 ≠ "" := by
      intro e
      rw [e, pySplit_nil] at h3
      simp at h3
    by_cases hf : (imap.fetch i).1 = "OK"
    · cases hm : (imap.fetch i).2 with
      | none => simp [search_latest_for_order, h1, h2, hne, h3, hf, hm]
      | some m => simp [search_latest_for_order, h1, h2, hne, h3, hf, hm]
    · simp [search_latest_for_order, h1, h2, hne, h3, hf]
  · intro imap o s h1 hd
    rcases hd with hd | hd
    · simp [search_latest_for_order, h1, hd]
    · cases hh : (imap.search (searchCrit o s)).2 with
      | nil => simp [search_latest_for_order, h1, hh]
      | cons d0 rest =>
        rw [hh] at hd
        simp at hd
        simp [search_latest_for_order, h1, hh, hd]

/-- Witness for C8: the store reports ids "3 7", the last id "7" is
fetched and its message returned; the zero-match session yields
none. -/
theorem C8_search_selects_last_witness :
    search_latest_for_order sessionUPS "A1" "" = .ok (some msgUPS)
    ∧ search_latest_for_order sessionNone "A1" "" = .ok none := by
  constructor
  · have h := C8_search_selects_last.1 sessionUPS "A1" "" "3 7" [] "7" rfl rfl (by decide)
    simpa using h
  · exact C8_search_selects_last.2 sessionNone "A1" "" rfl (Or.inr rfl)

/-- C5: an order for which no message is found — the search yields zero
matches, or the fetch of the selected id fails — produces exactly the
constant row (order, site, "Pending", "", "", "", ""), whose status
and empty fields do not depend on any message content, so the
classification steps are never consulted. -/
theorem C5_no_message_pending_row :
    (∀ imap r, extractOrder r ≠ "" →
        search_latest_for_order imap (extractOrder r) (extractSite r) = .ok none →
        processRow imap r
          = .ok (some ⟨extractOrder r, extractSite r, "Pending", "", "", "", ""⟩))
    ∧ (∀ imap o s, (imap.search (searchCrit o s)).1 = "OK" →
        (imap.search (searchCrit o s)).2.head? = some "" →
        search_latest_for_order imap o s = .ok none)
    ∧ (∀ imap o s d0 rest i, (imap.search (searchCrit o s)).1 = "OK" →
        (imap.search (searchCrit o s)).2 = d0 :: rest →
        (pySplit d0).getLast? = some i →
        ((imap.fetch i).1 ≠ "OK" ∨ (imap.fetch i).2 = none) →
        search_latest_for_order imap o s = .ok none) := by
  refine ⟨fun imap r ho hs => ?_, fun imap o s h1 hd => ?_,
    fun imap o s d0 rest i h1 h2 h3 hf => ?_⟩
  · simp [processRow, ho, hs]
  · cases hh : (imap.search (searchCrit o s)).2 with
    | nil => simp [search_latest_for_order, h1, hh]
    | cons d0 rest =>
      rw [hh] at hd
      simp at hd
      simp [search_latest_for_order, h1, hh, hd]
  · have hne : d0 ≠ "" := by
      intro e
      rw [e, pySplit_nil] at h3
      simp at h3
    rcases hf with hf | hf
    · simp [search_latest_for_order, h1, h2, hne, h3, hf]
    · by_cases hok : (imap.fetch i).1 = "OK"
      · simp [search_latest_for_order, h1, h2, hne, h3, hok, hf]
      · simp [search_latest_for_order, h1, h2, hne, h3, hok]

/-- Witness for C5: the zero-match session produces the constant
Pending row for order "A1". -/
theorem C5_no_message_pending_row_witness :
    processRow sessionNone [("order number", "A1")]
      = .ok (some ⟨"A1", "", "Pending", "", "", "", ""⟩) :=
  C5_no_message_pending_row.1 sessionNone [("order number", "A1")] (by decide) rfl

theorem takeClass_ne_nil (cls : Char → Bool) (k : Nat) (l d r : List Char)
    (h : takeClass cls k l = some (d, r)) (hk : k ≠ 0) : d ≠ [] := by
  cases k with
  | zero => exact absurd rfl hk
  | succ n =>
    cases l with
    | nil => simp [takeClass] at h
    | cons c rest =>
      rw [takeClass] at h
      by_cases hc : cls c = true
      · rw [if_pos hc] at h
        rcases Option.map_eq_some'.mp h with ⟨p, _, he⟩
        injection he with he1 he2
        rw [← he1]
        exact List.cons_ne_nil _ _
      · rw [if_neg hc] at h
        cases h

theorem tryDigitsLen_ne_nil (k : Nat) (l d : List Char)
    (h : tryDigitsLen k l = some d) (hk : k ≠ 0) : d ≠ [] := by
  rw [tryDigitsLen] at h
  split at h
  · rename_i d1 r1 heq
    split at h
    · cases h
    · cases h
      exact takeClass_ne_nil Char.isDigit k l _ r1 heq hk
  · cases h

theorem tryDigitsRange_ne_nil (lo : Nat) (hlo : lo ≠ 0) :
    ∀ (k : Nat) (l d : List Char), tryDigitsRange lo k l = some d → d ≠ [] := by
  intro k
  induction k with
  | zero =>
    intro l d h
    rw [tryDigitsRange] at h
    rw [if_pos (Nat.pos_of_ne_zero hlo)] at h
    cases h
  | succ n ih =>
    intro l d h
    rw [tryDigitsRange] at h
    by_cases hk : n + 1 < lo
    · rw [if_pos hk] at h; cases h
    · rw [if_neg hk] at h
      cases hl : tryDigitsLen (n + 1) l with
      | some d' =>
        rw [hl] at h
        injection h with h1
        rw [← h1]
        exact tryDigitsLen_ne_nil (n + 1) l d' hl (Nat.succ_ne_zero n)
      | none =>
        rw [hl] at h
        exact ih l d h

theorem tbaTail_ne_nil : ∀ (k : Nat) (rest d : List Char), tbaTail k rest = some d → d ≠ [] := by
  intro k
  induction k with
  | zero => intro rest d h; cases h
  | succ n ih =>
    intro rest d h
    rw [tbaTail] at h
    split at h
    · rename_i d1 r1 heq
      split at h
      · exact ih rest d h
      · cases h
        exact takeClass_ne_nil Char.isAlphanum (n + 1) rest _ r1 heq (Nat.succ_ne_zero n)
    · exact ih rest d h

theorem matchUPS_ne_nil (p : Option Char) (l m : List Char)
    (h : matchUPS p l = some m) : m ≠ [] := by
  unfold matchUPS at h
  repeat' split at h
  all_goals try cases h
  all_goals exact List.cons_ne_nil _ _

theorem matchUSPS_ne_nil (p : Option Char) (l m : List Char)
    (h : matchUSPS p l = some m) : m ≠ [] := by
  unfold matchUSPS at h
  repeat' split at h
  all_goals try cases h
  all_goals exact List.cons_ne_nil _ _

theorem matchFEDEX_ne_nil (p : Option Char) (l m : List Char)
    (h : matchFEDEX p l = some m) : m ≠ [] := by
  unfold matchFEDEX at h
  split at h
  · cases h
  · exact tryDigitsRange_ne_nil 12 (by decide) 22 l m h

theorem matchDHL_ne_nil (p : Option Char) (l m : List Char)
    (h : matchDHL p l = some m) : m ≠ [] := by
  unfold matchDHL at h
  split at h
  · cases h
  · exact tryDigitsLen_ne_nil 10 l m h (by decide)

theorem matchTBA_ne_nil (p : Option Char) (l m : List Char)
    (h : matchTBA p l = some m) : m ≠ [] := by
  unfold matchTBA at h
  repeat' split at h
  all_goals try cases h
  all_goals exact List.cons_ne_nil _ _

theorem searchA_ne_nil (matcher : Option Char → List Char → Option (List Char))
    (good : ∀ p l m, matcher p l = some m → m ≠ []) :
    ∀ (l : List Char) (prev : Option Char) (m : List Char),
      searchA matcher prev l = some m → m ≠ [] := by
  intro l
  induction l with
  | nil =>
    intro prev m h
    rw [searchA] at h
    cases hm : matcher prev [] with
    | none => rw [hm] at h; cases h
    | some x =>
      rw [hm] at h
      injection h with h1
      rw [← h1]
      exact good prev [] x hm
  | cons c rest ih =>
    intro prev m h
    rw [searchA] at h
    cases hm : matcher prev (c :: rest) with
    | some x =>
      rw [hm] at h
      injection h with h1
      rw [← h1]
      exact good prev (c :: rest) x hm
    | none =>
      rw [hm] at h
      exact ih (some c) m h

theorem reSearch_ne_empty (matcher : Option Char → List Char → Option (List Char))
    (good : ∀ p l m, matcher p l = some m → m ≠ []) (s : String) (m : String)
    (h : reSearch matcher s = some m) : m ≠ "" := by
  rcases Option.map_eq_some'.mp h with ⟨l, hl, he⟩
  intro hm
  have : l = [] := by
    have := congrArg String.data (he.trans hm)
    simpa using this
  exact searchA_ne_nil matcher good s.toList none l hl this

theorem detect_tracking_dichotomy (body : String) :
    detect_tracking body = ("", "")
    ∨ ((detect_tracking body).1 ≠ ""
        ∧ (detect_tracking body).1 ∈ (["UPS", "USPS", "FedEx", "DHL", "Amazon Logistics"] : List String)
        ∧ (detect_tracking body).2 ≠ "") := by
  cases h1 : reSearch matchUPS body with
  | some m =>
    right
    have hm := reSearch_ne_empty matchUPS matchUPS_ne_nil body m h1
    simp [detect_tracking, h1, hm]
  | none =>
  cases h2 : reSearch matchUSPS body with
  | some m =>
    right
    have hm := reSearch_ne_empty matchUSPS matchUSPS_ne_nil body m h2
    simp [detect_tracking, h1, h2, hm]
  | none =>
  cases h3 : reSearch matchFEDEX body with
  | some m =>
    right
    have hm := reSearch_ne_empty matchFEDEX matchFEDEX_ne_nil body m h3
    simp [detect_tracking, h1, h2, h3, hm]
  | none =>
  cases h4 : reSearch matchDHL body with
  | some m =>
    right
    have hm := reSearch_ne_empty matchDHL matchDHL_ne_nil body m h4
    simp [detect_tracking, h1, h2, h3, h4, hm]
  | none =>
  cases h5 : reSearch matchTBA body with
  | some m =>
    right
    have hm := reSearch_ne_empty matchTBA matchTBA_ne_nil body m h5
    simp [detect_tracking, h1, h2, h3, h4, h5, hm]
  | none =>
    left
    simp [detect_tracking, h1, h2, h3, h4, h5]

theorem processRow_carrier_iff (imap : ImapSession) (r : Row) (o : OutputRecord)
    (h : processRow imap r = .ok (some o)) : (o.carrier = "" ↔ o.tracking = "") := by
  by_cases ho : extractOrder r = ""
  · simp [processRow, ho] at h
  · cases hs : search_latest_for_order imap (extractOrder r) (extractSite r) with
    | error e => simp [processRow, ho, hs] at h
    | ok om =>
      cases om with
      | none =>
        simp [processRow, ho, hs] at h
        rw [← h]
      | some msg =>
        cases hd1 : dec (subjHdrOf msg) with
        | error e => simp [processRow, ho, hs, hd1] at h
        | ok subject =>
          cases hd2 : dec (dateHdrOf msg) with
          | error e => simp [processRow, ho, hs, hd1, hd2] at h
          | ok date_hdr =>
            simp [processRow, ho, hs, hd1, hd2] at h
            rw [← h]
            rcases detect_tracking_dichotomy (get_body msg) with hd | hd
            · simp [hd]
            · simp [hd.1, hd.2.2]

theorem mainLoop_mem_carrier_iff (imap : ImapSession) :
    ∀ (rows : List Row) (o : OutputRecord), o ∈ (mainLoop imap rows).1 →
      (o.carrier = "" ↔ o.tracking = "") := by
  intro rows
  induction rows with
  | nil => intro o h; simp [mainLoop] at h
  | cons r rs ih =>
    intro o h
    rw [mainLoop] at h
    cases hp : processRow imap r with
    | error e => rw [hp] at h; simp at h
    | ok oo =>
      cases oo with
      | none => rw [hp] at h; exact ih o h
      | some rec0 =>
        rw [hp] at h
        simp at h
        rcases h with rfl | h
        · exact processRow_carrier_iff imap r o hp
        · exact ih o h

/-- C9: the tracking extractor returns either a recognized carrier name
with a non-empty tracking number or both components empty, so in every
emitted OutputRecord the carrier field is empty exactly when the
tracking field is (the unmatched-order row leaves both empty). -/
theorem C9_carrier_iff_tracking :
    (∀ body, detect_tracking body = ("", "")
        ∨ ((detect_tracking body).1 ≠ ""
            ∧ (detect_tracking body).1 ∈ (["UPS", "USPS", "FedEx", "DHL", "Amazon Logistics"] : List String)
            ∧ (detect_tracking body).2 ≠ ""))
    ∧ (∀ body, ((detect_tracking body).1 = "" ↔ (detect_tracking body).2 = ""))
    ∧ (∀ imap rows o, o ∈ (mainLoop imap rows).1 → (o.carrier = "" ↔ o.tracking = "")) := by
  refine ⟨detect_tracking_dichotomy, fun body => ?_, fun imap rows o h => mainLoop_mem_carrier_iff imap rows o h⟩
  rcases detect_tracking_dichotomy body with hd | hd
  · simp [hd]
  · simp [hd.1, hd.2.2]

/-- Witness for C9: the record emitted for a body carrying a UPS number
has both fields non-empty; the equivalence holds on it. -/
theorem C9_carrier_iff_tracking_witness :
    ((⟨"A1", "shop", "Shipped", "1Z999AA10123456784", "UPS", "Mon, 5 May",
        "Your order"⟩ : OutputRecord).carrier = ""
      ↔ (⟨"A1", "shop", "Shipped", "1Z999AA10123456784", "UPS", "Mon, 5 May",
        "Your order"⟩ : OutputRecord).tracking = "") :=
  C9_carrier_iff_tracking.2.2 sessionUPS [[("order number", "A1"), ("site", "shop")]]
    _ (by decide)

theorem search_ok_of_wf (imap : ImapSession)
    (hwf : ∀ crit d0 rest, (imap.search crit).2 = d0 :: rest → d0 ≠ "" → pySplit d0 ≠ [])
    (o s : String) :
    (search_latest_for_order imap o s = .ok none)
    ∨ (∃ m i, search_latest_for_order imap o s = .ok (some m) ∧ (imap.fetch i).2 = some m) := by
  by_cases h1 : (imap.search (searchCrit o s)).1 = "OK"
  · cases hh : (imap.search (searchCrit o s)).2 with
    | nil => left; simp [search_latest_for_order, h1, hh]
    | cons d0 rest =>
      by_cases hd0 : d0 = ""
      · left; simp [search_latest_for_order, h1, hh, hd0]
      · have hsp := hwf (searchCrit o s) d0 rest hh hd0
        cases hps : pySplit d0 with
        | nil => exact absurd hps hsp
        | cons a as =>
          have hl : (pySplit d0).getLast? = some ((a :: as).getLast (List.cons_ne_nil a as)) := by
            rw [hps]
            exact List.getLast?_eq_getLast _ _
          by_cases hf : (imap.fetch ((a :: as).getLast (List.cons_ne_nil a as))).1 = "OK"
          · cases hm : (imap.fetch ((a :: as).getLast (List.cons_ne_nil a as))).2 with
            | none => left; simp [search_latest_for_order, h1, hh, hd0, hl, hf, hm]
            | some m =>
              right
              exact ⟨m, (a :: as).getLast (List.cons_ne_nil a as),
                by simp [search_latest_for_order, h1, hh, hd0, hl, hf, hm], hm⟩
          · left; simp [search_latest_for_order, h1, hh, hd0, hl, hf]
  · left; simp [search_latest_for_order, h1]

theorem processRow_wf (imap : ImapSession) (hwf : SessionWf imap) (r : Row) :
    (extractOrder r = "" ∧ processRow imap r = .ok none)
    ∨ (extractOrder r ≠ "" ∧ ∃ o : OutputRecord, processRow imap r = .ok (some o)
        ∧ o.order_number = extractOrder r ∧ o.site = extractSite r) := by
  by_cases ho : extractOrder r = ""
  · exact Or.inl ⟨ho, by simp [processRow, ho]⟩
  · right
    refine ⟨ho, ?_⟩
    rcases search_ok_of_wf imap hwf.1 (extractOrder r) (extractSite r) with hs | ⟨m, i, hs, hm⟩
    · exact ⟨⟨extractOrder r, extractSite r, "Pending", "", "", "", ""⟩,
        by simp [processRow, ho, hs], rfl, rfl⟩
    · obtain ⟨⟨ts, hts⟩, ⟨td, htd⟩⟩ := hwf.2 i m hm
      refine ⟨⟨extractOrder r, extractSite r,
        detect_status ts (get_body m) ((detect_tracking (get_body m)).2 != ""),
        (detect_tracking (get_body m)).2, (detect_tracking (get_body m)).1, td, ts⟩,
        ?_, rfl, rfl⟩
      simp [processRow, ho, hs, hts, htd]

/-- C4 counterexample: two rows with the non-empty order numbers "1"
and "2"; the message found for order "1" has a Subject declaring an
unknown charset, so its header decode raises, the loop aborts, and no
row at all is emitted — in particular none for order "2".  This
refutes "one order's failure to match or decode never prevents
subsequent orders from producing their row". -/
theorem C4_counterexample :
    extractOrder [("order number", "1")] ≠ ""
    ∧ extractOrder [("order number", "2")] ≠ ""
    ∧ mainLoop sessionBad [[("order number", "1")], [("order number", "2")]]
        = ([], some "LookupError") :=
  ⟨by decide, by decide, rfl⟩

/-- C4 amended: provided the session is protocol-conformant — every
nonempty search data item contains an id token, and the headers of
every fetchable message decode without raising — the driver emits
exactly one OutputRecord per OrderRecord with a non-empty order
number, in input order, with order_number and site equal to the
input's; empty order numbers are skipped silently; and the loop runs
to completion, so one order's failure to match or body-decode never
prevents later rows.  Without the proviso, an unknown declared header
charset (or a whitespace-only search response) raises an uncaught
exception that aborts the run. -/
theorem C4_driver_one_row_per_order (imap : ImapSession) (rows : List Row)
    (hwf : SessionWf imap) :
    (mainLoop imap rows).2 = none
    ∧ (mainLoop imap rows).1.map (fun o => (o.order_number, o.site))
        = rows.filterMap (fun r =>
            if extractOrder r = "" then none
            else some (extractOrder r, extractSite r)) := by
  induction rows with
  | nil => exact ⟨rfl, rfl⟩
  | cons r rs ih =>
    rcases processRow_wf imap hwf r with ⟨ho, hp⟩ | ⟨ho, o, hp, h1, h2⟩
    · simp only [mainLoop, hp]
      refine ⟨ih.1, ?_⟩
      rw [ih.2]
      simp [List.filterMap_cons, ho]
    · simp only [mainLoop, hp]
      refine ⟨ih.1, ?_⟩
      simp [List.filterMap_cons, ho, h1, h2, ih.2]

/-- Witness for C4: a conformant zero-match session over one valid row
and one row with no order number. -/
theorem C4_driver_one_row_per_order_witness :
    (mainLoop sessionNone [[("order number", "A1")], [("site", "x")]]).2 = none
    ∧ (mainLoop sessionNone [[("order number", "A1")], [("site", "x")]]).1.map
        (fun o => (o.order_number, o.site))
      = [[("order number", "A1")], [("site", "x")]].filterMap (fun r =>
          if extractOrder r = "" then none
          else some (extractOrder r, extractSite r)) := by
  have hwf : SessionWf sessionNone := by
    constructor
    · intro crit d0 rest h hne
      exfalso
      apply hne
      have h' : ([""] : List String) = d0 :: rest := h
      injection h' with ha hb
      exact ha.symm
    · intro i m h
      exact absurd h (by simp [sessionNone])
  exact C4_driver_one_row_per_order sessionNone _ hwf
